import Mathlib

/-!
Verification of the SteamCompletionist incremental-sync engine.

The Python sources (`steam_utils.py`, `hltb_utils.py`, `file_utils.py`,
`main.py`, `steam_hltb_mapping.py`) are shallowly embedded below.  Numeric
values (Python floats such as achievement percentages and HLTB hours) are
modelled as exact fractions (`Q`: integer numerator over natural
denominator, compared by cross multiplication) so that every definition is
executable and kernel-reducible.  External collaborators (the Steam web
API, the HowLongToBeat search) are parameters: each embedded function takes
the collaborator's response as an argument.
-/

/-- Exact fraction standing in for a Python float.  All fractions built by
the embedding have a positive denominator; comparisons cross-multiply, so
no normalisation (gcd) is ever needed and everything reduces in the
kernel. -/
structure Q where
  num : Int
  den : Nat
deriving DecidableEq, Repr

/-- Value order on fractions (cross multiplication). -/
def Q.le (a b : Q) : Prop := a.num * (b.den : Int) ≤ b.num * (a.den : Int)

/-- Strict value order on fractions (cross multiplication). -/
def Q.lt (a b : Q) : Prop := a.num * (b.den : Int) < b.num * (a.den : Int)

instance (a b : Q) : Decidable (Q.le a b) := by unfold Q.le; infer_instance

instance (a b : Q) : Decidable (Q.lt a b) := by unfold Q.lt; infer_instance

/-- A fraction with integer value `n`. -/
def Q.ofInt (n : Int) : Q := ⟨n, 1⟩

/-- Python `x == 0.0` on our fractions (denominators are positive). -/
def Q.isZero (q : Q) : Bool := q.num == 0

/-- Python `max` of two values (keeps the first argument on ties, as
`max(iterable)` replaces the running maximum only on strict increase). -/
def Q.pymax (a b : Q) : Q := if Q.lt a b then b else a

/-- Python `max(list)` for a non-empty list; the empty-list default is
never reached by the embedding (Python would raise `ValueError`). -/
def Q.maxList : List Q → Q
  | [] => ⟨0, 1⟩
  | x :: xs => xs.foldl Q.pymax x

/-- Round-half-to-even of `q * scale` to an integer: the rounding mode of
Python's builtin `round`.  `f` is the floor, `rem` the remainder; the
half-way case goes to the even neighbour. -/
def Q.rneScaled (q : Q) (scale : Nat) : Int :=
  let N : Int := q.num * (scale : Int)
  let D : Int := (q.den : Int)
  let f : Int := Int.fdiv N D
  let rem : Int := N - f * D
  if 2 * rem < D then f
  else if D < 2 * rem then f + 1
  else if f % 2 = 0 then f else f + 1

/-- Python `round(q, 1)`. -/
def Q.round1 (q : Q) : Q := ⟨Q.rneScaled q 10, 10⟩

/-- Python `round(q, 2)`. -/
def Q.round2 (q : Q) : Q := ⟨Q.rneScaled q 100, 100⟩

/-- Python `f"{q:.1f}"`: fixed-point rendering with exactly one decimal
digit (the format itself rounds half-to-even, which is exact on values that
already carry at most one decimal). -/
def Q.fmtOneDec (q : Q) : String :=
  let n : Int := Q.rneScaled q 10
  let core : String := toString (n.natAbs / 10) ++ "." ++ toString (n.natAbs % 10)
  if n < 0 then "-" ++ core else core

/-- Numeric value of a digit character. -/
def digitVal (c : Char) : Nat := c.toNat - 48

/-- Value of a digit string, most significant first. -/
def digitsVal (cs : List Char) : Nat := cs.foldl (fun acc c => acc * 10 + digitVal c) 0

/-- Helper for `floatOfStr`: numerator and count of fractional digits of a
decimal literal, `(0, 0)` for strings Python's `float` would reject (such
strings never reach the sort key in the pipeline, whose rarity strings all
come from `Q.fmtOneDec`). -/
def parseParts (s : String) : Int × Nat :=
  let (neg, cs) :=
    match s.data with
    | '-' :: rest => (true, rest)
    | cs => (false, cs)
  let intPart := cs.takeWhile (fun c => c ≠ '.')
  let rest := cs.dropWhile (fun c => c ≠ '.')
  let frac := match rest with
    | '.' :: f => f
    | _ => []
  if intPart ≠ [] ∧ intPart.all Char.isDigit ∧ frac.all Char.isDigit then
    let v : Int := (digitsVal intPart * 10 ^ frac.length + digitsVal frac : Nat)
    ((if neg then -v else v), frac.length)
  else (0, 0)

/-- Python `float(s)` for the decimal strings the pipeline stores; the
denominator is always the positive power of ten given by the count of
fractional digits. -/
def floatOfStr (s : String) : Q := ⟨(parseParts s).1, 10 ^ (parseParts s).2⟩

/-! ## String helpers (Python string methods used by the sources) -/

/-- Python `str.strip()`: remove leading and trailing whitespace. -/
def pyTrim (s : String) : String :=
  (((s.data.dropWhile Char.isWhitespace).reverse.dropWhile Char.isWhitespace).reverse).asString

/-- The regex substitution `re.sub(r'[^\x00-\x7F]+', '', s)` from
`hltb_utils.get_hltb_data`: drop every non-ASCII character. -/
def asciiStrip (s : String) : String := (s.data.filter (fun c => c.toNat ≤ 127)).asString

/-- Python `str.lower()` (the titles involved are ASCII). -/
def pyLower (s : String) : String := (s.data.map Char.toLower).asString

/-- Worker for `splitWs`, accumulating the current word. -/
def splitWsAux : List Char → List Char → List String
  | [], acc => if acc.isEmpty then [] else [acc.reverse.asString]
  | c :: cs, acc =>
    if c.isWhitespace then
      if acc.isEmpty then splitWsAux cs [] else acc.reverse.asString :: splitWsAux cs []
    else splitWsAux cs (c :: acc)

/-- Python `str.split()` with no separator: split on whitespace runs,
discarding empty fields. -/
def splitWs (s : String) : List String := splitWsAux s.data []

/-- Worker for `splitOnSpace`, accumulating the current field. -/
def splitOnSpaceAux : List Char → List Char → List (List Char)
  | [], acc => [acc.reverse]
  | c :: cs, acc => if c = ' ' then acc.reverse :: splitOnSpaceAux cs [] else splitOnSpaceAux cs (c :: acc)

/-- Python `s.split(' ')`: split on every single space, keeping empty
fields. -/
def splitOnSpace (s : String) : List (List Char) := splitOnSpaceAux s.data []

/-- Python `s.rsplit(' ', k)[0]`: everything before the last `k` space
splits (at most `k` splits are performed from the right, so at least the
first field always remains). -/
def rsplitHead (s : String) (k : Nat) : String :=
  let parts := splitOnSpace s
  let keep := if k < parts.length then parts.length - k else 1
  (List.intercalate [' '] (parts.take keep)).asString

/-- Python `s.split(sep)[0]` for a one-character separator: the prefix
before the first occurrence. -/
def splitHead (s : String) (sep : Char) : String := (s.data.takeWhile (fun c => c ≠ sep)).asString

/-- Python `c in s` for a single character. -/
def pyContainsChar (s : String) (c : Char) : Bool := s.data.contains c

/-- A `\w` character of the regex `r"\s\(\w+\)$"` (ASCII reading). -/
def isWordChar (c : Char) : Bool := c.isAlphanum || c = '_'

/-- Whether `re.search(r"\s\(\w+\)$", s)` matches: the string ends with a
whitespace character, an opening parenthesis, one or more word characters
and a closing parenthesis. -/
def endsYearParen (s : String) : Bool :=
  match s.data.reverse with
  | ')' :: rest =>
    let w := rest.takeWhile isWordChar
    !w.isEmpty &&
      (match rest.drop w.length with
       | '(' :: c :: _ => c.isWhitespace
       | _ => false)
  | _ => false

/-- The test `game_name.split()[-1].lower() == "edition"` guarding the
edition rung of `get_hltb_data` (Python raises `IndexError` on a
whitespace-only title; titles reaching this point are non-empty, and the
embedding reports no match there). -/
def lastTokenIsEdition (s : String) : Bool :=
  match (splitWs s).getLast? with
  | some t => pyLower t == "edition"
  | none => false

/-! ## Data model -/

/-- One achievement as returned by
`GetGlobalAchievementPercentagesForApp`; the source reads the unlock
percentage with `x.get('percent', 100)`, so the field may be absent. -/
structure Achievement where
  percent : Option Q
deriving DecidableEq, Repr

/-- One entry of a user's achievement states as returned by
`GetPlayerAchievements`; the source reads `a.get('achieved', False)`. -/
structure PlayerAch where
  achieved : Option Bool
deriving DecidableEq, Repr

/-- An ownership-list item (`{'appid': ..., 'name': ...}`). -/
structure Game where
  appid : Nat
  name : String
deriving DecidableEq, Repr

/-- One HowLongToBeat search result as used by `hltb_utils`. -/
structure HltbEntry where
  game_id : Nat
  game_name : String
  similarity : Q
  main_story : Q
  main_extra : Q
  completionist : Q
  all_styles : Q
deriving DecidableEq, Repr

/-- The dictionary built by `scrape_steam_data` (note: the source builds
the keys `AppID`, `Title`, `Rarest Achievement %`, `Completed`, `HLTB ID`,
`HLTB Completionist Time` and no `HLTB Title` key). -/
structure LibraryRecord where
  AppID : Nat
  Title : String
  rarestAchievementPct : String
  Completed : Option Bool
  hltbId : Option Nat
  hltbCompletionistTime : Option Q
deriving DecidableEq, Repr

/-- A transport-level failure of a Steam web API call
(`requests.exceptions.HTTPError`). -/
inductive HttpErr where
  | httpError
deriving DecidableEq, Repr

/-- Python runtime exceptions raised by the embedded code. -/
inductive PyErr where
  | valueError
  | typeError
deriving DecidableEq, Repr

/-! ## hltb_utils.py -/

/-- Python `max(results_list, key=lambda e: e.similarity)` on a possibly
empty list: `none` for the empty list, otherwise the first entry of
maximal similarity (Python's `max` replaces the running best only on a
strict increase). -/
def pyMaxBySim : List HltbEntry → Option HltbEntry
  | [] => none
  | x :: xs => some (xs.foldl (fun best e => if Q.lt best.similarity e.similarity then e else best) x)

/-- The four time categories read from the best HLTB entry, in source
order `[main_story, main_extra, completionist, all_styles]`. -/
def hltbTimes (e : HltbEntry) : List Q := [e.main_story, e.main_extra, e.completionist, e.all_styles]

/-- `hltb_utils.get_hltb_data`, instrumented: the collaborator's fuzzy
search is the parameter `search`; the first component of the result lists
every query issued, in order, and the second is the returned triple
`(hltb_id, hltb_game_name, completionist_time)`.  The retry ladder and the
reassignment of `game_name` at the ASCII rung follow the source line by
line. -/
def get_hltb_run (search : String → List HltbEntry) (name0 : String) :
    List String × (Option Nat × Option String × Option Q) := Id.run do
  let mut game_name := name0
  let mut queries := [game_name]
  let mut results := search game_name
  -- try stripping the unicode characters if nothing found
  if results.isEmpty then
    game_name := asciiStrip game_name
    queries := queries ++ [game_name]
    results := search game_name
  -- try searching a lowercase title if nothing found
  if results.isEmpty then
    queries := queries ++ [pyLower game_name]
    results := search (pyLower game_name)
  -- try searching after removing any details about the game edition
  if results.isEmpty && lastTokenIsEdition game_name then
    queries := queries ++ [rsplitHead game_name 2]
    results := search (rsplitHead game_name 2)
  -- try searching after removing the year from the title
  if results.isEmpty && endsYearParen game_name then
    queries := queries ++ [rsplitHead game_name 1]
    results := search (rsplitHead game_name 1)
  -- try searching without the dash
  if results.isEmpty && pyContainsChar game_name '-' then
    queries := queries ++ [splitHead game_name '-']
    results := search (splitHead game_name '-')
  -- try searching without the colon
  if results.isEmpty && pyContainsChar game_name ':' then
    queries := queries ++ [splitHead game_name ':']
    results := search (splitHead game_name ':')
  match pyMaxBySim results with
  | some best =>
    -- `if best_element:` is always true for a result object
    let time := Q.round2 (Q.maxList (hltbTimes best))
    return (queries, (some best.game_id, some best.game_name,
                      if Q.isZero time then none else some time))
  | none => return (queries, (none, none, none))

/-- The triple returned by `get_hltb_data`. -/
def get_hltb_data (search : String → List HltbEntry) (name0 : String) :
    Option Nat × Option String × Option Q := (get_hltb_run search name0).2

/-- The queries `get_hltb_data` sends to the Length Source, in order. -/
def hltbQueries (search : String → List HltbEntry) (name0 : String) : List String :=
  (get_hltb_run search name0).1

/-! ## steam_utils.py -/

/-- `steam_utils.get_game_achievement_data`: the raw API call is the
parameter `fetch`; an `HTTPError` or an empty achievement list both become
`None`. -/
def get_game_achievement_data (fetch : Nat → Except HttpErr (List Achievement)) (appid : Nat) :
    Option (List Achievement) :=
  match fetch appid with
  | Except.error _ => none
  | Except.ok achievement_data => if achievement_data.isEmpty then none else some achievement_data

/-- Python `min(data, key=lambda x: x.get('percent', 100))`: `ValueError`
on an empty list, else the first element of minimal key. -/
def pyMinByPercent : List Achievement → Except PyErr Achievement
  | [] => Except.error PyErr.valueError
  | a :: rest =>
    Except.ok (rest.foldl
      (fun best x =>
        if Q.lt (x.percent.getD (Q.ofInt 100)) (best.percent.getD (Q.ofInt 100)) then x else best) a)

/-- `steam_utils.get_rarest_achievement_percentage`: minimum by the
`percent` key, rounded to one decimal and rendered as `f"{...:.1f}"`.
A winner lacking the `percent` key would make Python's `round(None, 1)`
raise `TypeError`. -/
def get_rarest_achievement_percentage (data : List Achievement) : Except PyErr String := do
  let winner ← pyMinByPercent data
  match winner.percent with
  | none => Except.error PyErr.typeError
  | some p => Except.ok (Q.fmtOneDec (Q.round1 p))

/-- `steam_utils.player_has_completed`: the `GetPlayerAchievements` call is
the parameter `fetch`; an `HTTPError` yields `None`, otherwise
`all(a.get('achieved', False) for a in achievements)`. -/
def player_has_completed (fetch : Nat → Except HttpErr (List PlayerAch)) (appid : Nat) :
    Option Bool :=
  match fetch appid with
  | Except.error _ => none
  | Except.ok achievements => some (achievements.all (fun a => a.achieved.getD false))

/-- The statement `hltb_id, hltb_completionist_time = get_hltb_data(game_name)`
at `steam_utils.py:143`: unpacking the 3-tuple returned by `get_hltb_data`
into two targets raises `ValueError: too many values to unpack`. -/
def unpackPair3 (_t : Option Nat × Option String × Option Q) :
    Except PyErr (Option Nat × Option Q) :=
  Except.error PyErr.valueError

/-- The loop body of `steam_utils.scrape_steam_data` over the remaining
games; an uncaught exception aborts the whole call, as in Python, and the
records and no-achievement appids are accumulated in loop order. -/
def scrapeItems (achFetch : Nat → Except HttpErr (List Achievement))
    (complFetch : Nat → Except HttpErr (List PlayerAch))
    (search : String → List HltbEntry) :
    List Game → Except PyErr (List LibraryRecord × List Nat)
  | [] => Except.ok ([], [])
  | g :: rest => do
    let game_name := pyTrim g.name
    -- `if game_name is False:` compares a str with the object False: never true
    let achievements := get_game_achievement_data achFetch g.appid
    let (hltb_id, hltb_completionist_time) ← unpackPair3 (get_hltb_data search game_name)
    match achievements with
    | none => do
      let (ds, ns) ← scrapeItems achFetch complFetch search rest
      Except.ok (ds, g.appid :: ns)
    | some ach => do
      let rarest ← get_rarest_achievement_percentage ach
      let has_completed := player_has_completed complFetch g.appid
      let (ds, ns) ← scrapeItems achFetch complFetch search rest
      Except.ok ({ AppID := g.appid, Title := game_name, rarestAchievementPct := rarest,
                   Completed := has_completed, hltbId := hltb_id,
                   hltbCompletionistTime := hltb_completionist_time } :: ds, ns)

/-- `steam_utils.scrape_steam_data`: scrape every game, then return the
scraped records together with `sorted(no_achievements)`. -/
def scrape_steam_data (achFetch : Nat → Except HttpErr (List Achievement))
    (complFetch : Nat → Except HttpErr (List PlayerAch))
    (search : String → List HltbEntry) (new_games : List Game) :
    Except PyErr (List LibraryRecord × List Nat) := do
  let (scraped_data, no_achievements) ← scrapeItems achFetch complFetch search new_games
  Except.ok (scraped_data, no_achievements.insertionSort (· ≤ ·))

/-- Abort signals of identity resolution: `sys.exit(1)` or an uncaught
`ValueError`. -/
inductive AbortKind where
  | exitOne
  | valueError
deriving DecidableEq, Repr

/-- Python `str(x)` for `x` either `None` or an integer: `str(None)` is the
non-empty string `"None"`. -/
def pyStrOfOpt : Option Nat → String
  | none => "None"
  | some n => toString n

/-- `steam_utils.resolve_vanity_url`: the outcome of
`steamid.steam64_from_url` is the parameter `svc` (`Except.error` is a
`requests.exceptions.RequestException`, `Except.ok none` the service
answering that the name maps to nothing).  The source applies `str` before
the truthiness test `if steam_id:`. -/
def resolve_vanity_url (svc : Except HttpErr (Option Nat)) : Except AbortKind String :=
  match svc with
  | Except.error _ => Except.error AbortKind.exitOne
  | Except.ok r =>
    let steam_id := pyStrOfOpt r
    if steam_id ≠ "" then Except.ok steam_id
    else Except.error AbortKind.valueError

/-- The command-line arguments `main.resolve_steamid` inspects. -/
structure Args where
  steamidArg : Option String
  vanityArg : Option String
deriving DecidableEq, Repr

/-- `main.resolve_steamid`: `cfg` is `config.STEAM_ID`.  On the vanity
branch the guard `if steamid is None:` compares a `str` with the `None`
object and so never fires. -/
def resolve_steamid (cfg : String) (svc : Except HttpErr (Option Nat)) (args : Args) :
    Except AbortKind String :=
  match args.steamidArg with
  | some s => Except.ok s
  | none =>
    match args.vanityArg with
    | some _ => do
      let steamid ← resolve_vanity_url svc
      Except.ok steamid
    | none =>
      -- `if not steamid.isdigit() or len(steamid) != 17: raise ValueError`
      if (!cfg.data.isEmpty && cfg.data.all Char.isDigit) && cfg.data.length == 17 then
        Except.ok cfg
      else Except.error AbortKind.valueError

/-! ## file_utils.py -/

/-- The sort key of `save_to_json`:
`float(x['Rarest Achievement %'])`. -/
def rarityKey (r : LibraryRecord) : Q := floatOfStr r.rarestAchievementPct

/-- Descending-rarity order between records, the order
`existing_data.sort(key=..., reverse=True)` establishes. -/
def rarityDesc (a b : LibraryRecord) : Prop := Q.le (rarityKey b) (rarityKey a)

instance (a b : LibraryRecord) : Decidable (rarityDesc a b) := by
  unfold rarityDesc; infer_instance

/-- `file_utils.save_to_json` on the decoded JSON contents: append the new
records, then sort by descending rarity (a stable sort, like Python's
`list.sort`). -/
def save_to_json (existing_data data : List LibraryRecord) : List LibraryRecord :=
  (existing_data ++ data).insertionSort rarityDesc

/-- `file_utils.save_appids_without_achievements` on the decoded JSON
contents: `sorted(set(existing + new))`. -/
def save_appids_without_achievements (existing_appids appids : List Nat) : List Nat :=
  ((existing_appids ++ appids).dedup).insertionSort (· ≤ ·)

/-- `file_utils.load_existing_appids`: the union of the AppIDs of the
user's library store and of the no-achievements registry.  The source
accumulates a Python set; the embedding keeps a list and only ever uses
membership. -/
def load_existing_appids (store : List LibraryRecord) (registry : List Nat) : List Nat :=
  store.map LibraryRecord.AppID ++ registry

/-! ## main.py -/

/-- `main.get_new_games`: owned games whose AppID is not among the already
scanned ones. -/
def get_new_games (existing_appids : List Nat) (owned_games : List Game) : List Game :=
  owned_games.filter (fun g => !existing_appids.contains g.appid)

/-- The persisted state a sync pass reads and writes, plus the error log
printed by `scrape_and_save_data` (one `(appid, title)` diagnostic per
caught exception). -/
structure SyncState where
  store : List LibraryRecord
  registry : List Nat
  log : List (Nat × String)
deriving DecidableEq, Repr

/-- One iteration of the loop in `main.scrape_and_save_data`: run the
per-item scrape step, save records and registry entries on success, and on
any exception print a diagnostic carrying the item's AppID and title and
continue. -/
def processGame (step : Game → Except PyErr (List LibraryRecord × List Nat))
    (st : SyncState) (g : Game) : SyncState :=
  match step g with
  | Except.ok (scraped_data, no_achievements) =>
    { st with store := save_to_json st.store scraped_data,
              registry := save_appids_without_achievements st.registry no_achievements }
  | Except.error _ => { st with log := st.log ++ [(g.appid, g.name)] }

/-- `main.scrape_and_save_data`: the per-item loop with its
`try/except Exception` isolation. -/
def scrape_and_save_data (step : Game → Except PyErr (List LibraryRecord × List Nat))
    (st : SyncState) (new_games : List Game) : SyncState :=
  new_games.foldl (processGame step) st

/-- Outcome of scraping one pending item, abstracting the two collaborator
calls: a full record payload, a no-achievements classification, or an
uncaught exception. -/
inductive ItemOutcome where
  | payload (rarest : String) (completed : Option Bool) (hid : Option Nat) (htime : Option Q)
  | noAchievements
  | raised (e : PyErr)
deriving DecidableEq, Repr

/-- The per-item step induced by an `ItemOutcome` assignment: a successful
item contributes the one record `scrape_steam_data` builds for it (its
`AppID` is the game's appid by construction, `steam_utils.py:155`), a
no-achievements item contributes its appid to the registry batch, and an
exception propagates. -/
def itemStep (outcome : Game → ItemOutcome) (g : Game) :
    Except PyErr (List LibraryRecord × List Nat) :=
  match outcome g with
  | ItemOutcome.payload rarest completed hid htime =>
    Except.ok ([{ AppID := g.appid, Title := pyTrim g.name, rarestAchievementPct := rarest,
                  Completed := completed, hltbId := hid, hltbCompletionistTime := htime }], [])
  | ItemOutcome.noAchievements => Except.ok ([], [g.appid])
  | ItemOutcome.raised e => Except.error e

/-- One full sync pass as `main.main` composes it: recompute the
already-processed set from the persisted stores, filter the ownership
list, and run the per-item loop over the pending items. -/
def syncPass (outcome : Game → ItemOutcome) (st : SyncState) (owned_games : List Game) :
    SyncState :=
  scrape_and_save_data (itemStep outcome) st
    (get_new_games (load_existing_appids st.store st.registry) owned_games)

/-! ## steam_hltb_mapping.py -/

/-- One entry of `steam_hltb_map.json` as built by
`add_new_ids_from_users`; every payload field comes from `entry.get(...)`
and may be `None`. -/
structure SHEntry where
  AppID : Nat
  Title : Option String
  rarest : Option String
  hltbId : Option Nat
  hltbTitle : Option String
  hltbTime : Option Q
deriving DecidableEq, Repr

/-- The cross-reference entry built from one user record.  Records written
by `scrape_steam_data` carry no `HLTB Title` key, so
`entry.get('HLTB Title')` is always `None`. -/
def projEntry (r : LibraryRecord) : SHEntry :=
  { AppID := r.AppID, Title := some r.Title, rarest := some r.rarestAchievementPct,
    hltbId := r.hltbId, hltbTitle := none, hltbTime := r.hltbCompletionistTime }

/-- Python dict assignment `d[k] = v`: overwrite in place if the key
exists, else append. -/
def pyDictInsert (d : List (Nat × SHEntry)) (k : Nat) (v : SHEntry) : List (Nat × SHEntry) :=
  if d.any (fun p => p.1 == k) then d.map (fun p => if p.1 == k then (k, v) else p)
  else d ++ [(k, v)]

/-- Key membership of a Python dict (`k in d`). -/
def pyHasKey (d : List (Nat × SHEntry)) (k : Nat) : Bool := d.any (fun p => p.1 == k)

/-- `steam_hltb_mapping.load_existing_ids` on the decoded cache file:
`{entry['AppID']: entry for entry in existing_data}`. -/
def load_existing_ids (cache : List SHEntry) : List (Nat × SHEntry) :=
  cache.foldl (fun d e => pyDictInsert d e.AppID e) []

/-- The double loop of `add_new_ids_from_users` over every record of every
user file: a record is added to `new_entries` when its AppID is neither in
the cache dict nor already collected (first record wins). -/
def collectNewEntries (existing : List (Nat × SHEntry)) :
    List LibraryRecord → List (Nat × SHEntry) → List (Nat × SHEntry)
  | [], acc => acc
  | r :: rs, acc =>
    if pyHasKey existing r.AppID || pyHasKey acc r.AppID then
      collectNewEntries existing rs acc
    else collectNewEntries existing rs (acc ++ [(r.AppID, projEntry r)])

/-- `steam_hltb_mapping.add_new_ids_from_users` on decoded file contents:
collect the fresh entries from every user file and extend the cache file
with `list(new_entries.values())` (`update_steam_hltb_map`); an empty
collection leaves the cache unchanged. -/
def add_new_ids_from_users (cache : List SHEntry) (files : List (List LibraryRecord)) :
    List SHEntry :=
  let existing_ids := load_existing_ids cache
  let new_entries := collectNewEntries existing_ids files.flatten []
  cache ++ new_entries.map Prod.snd

/-! ## Concrete collaborator instances used by the example-based claims -/

/-- Python `min` of two values, keeping the first on ties. -/
def Q.pymin (a b : Q) : Q := if Q.lt b a then b else a

/-- The achievement list `[{percent: 50.0}, {percent: 12.34}]` of the
spec's worked example. -/
def exampleAchievements : List Achievement := [⟨some ⟨50, 1⟩⟩, ⟨some ⟨1234, 100⟩⟩]

/-- Catalog Source returning the example achievement list for every
game. -/
def exampleAchFetch : Nat → Except HttpErr (List Achievement) :=
  fun _ => Except.ok exampleAchievements

/-- Catalog Source reporting every achievement unlocked (completion
`true`). -/
def exampleComplFetch : Nat → Except HttpErr (List PlayerAch) :=
  fun _ => Except.ok [⟨some true⟩, ⟨some true⟩]

/-- Length Source returning the example best match
`{id: 99, title: "Game A", similarity: 0.9, completionist: 10.0,
mainStory: 5, mainExtra: 0, allStyles: 0}`. -/
def exampleSearch : String → List HltbEntry :=
  fun _ => [{ game_id := 99, game_name := "Game A", similarity := ⟨9, 10⟩,
              main_story := ⟨5, 1⟩, main_extra := ⟨0, 1⟩,
              completionist := ⟨10, 1⟩, all_styles := ⟨0, 1⟩ }]

/-- The example ownership entry `{id: 10, title: "Game A"}`. -/
def exampleGame : Game := ⟨10, "Game A"⟩

/-- A Length Source with no candidates for any query. -/
def emptySearch : String → List HltbEntry := fun _ => []

/-- An empty persisted state (fresh user, empty registry). -/
def emptyState : SyncState := ⟨[], [], []⟩

/-- Modelled from the spec's words for the cross-reference import
(§4.5 Import, first-seen wins): of the records drawn from the user files,
keep exactly the first record of each AppID not already in the cache.
Stated independently of `add_new_ids_from_users` so the two can be
compared. -/
def firstFreshPerAppID (cacheIds : List Nat) : List LibraryRecord → List Nat → List LibraryRecord
  | [], _ => []
  | r :: rs, seen =>
    if cacheIds.contains r.AppID || seen.contains r.AppID then
      firstFreshPerAppID cacheIds rs seen
    else r :: firstFreshPerAppID cacheIds rs (seen ++ [r.AppID])

/-- Descending rarity is a total relation (cross-multiplied integer
comparison). -/
instance : IsTotal LibraryRecord rarityDesc :=
  ⟨fun a b => Int.le_total _ _⟩

/-- Descending rarity is transitive: every sort key produced by
`floatOfStr` has a positive denominator, so the cross-multiplied
comparisons chain. -/
instance : IsTrans LibraryRecord rarityDesc := by
  constructor
  intro a b c hab hbc
  unfold rarityDesc Q.le at *
  have hden : ∀ s : String, (0 : Int) < ((floatOfStr s).den : Int) := fun s => by
    exact_mod_cast pow_pos (by norm_num : (0:Nat) < 10) _
  have ha := hden a.rarestAchievementPct
  have hb := hden b.rarestAchievementPct
  have hc := hden c.rarestAchievementPct
  unfold rarityKey at *
  nlinarith [mul_le_mul_of_nonneg_right hab (le_of_lt hc),
             mul_le_mul_of_nonneg_right hbc (le_of_lt ha), hb,
             mul_pos ha hc]

/-! ## Claim theorems: the worked sync example, the broken unpack -/

/-- C1: for the spec's worked example (ownership `{id:10, title:"Game A"}`,
achievements `[{percent:50.0},{percent:12.34}]`, completion true, best
length match id 99 / title "Game A" / completionist 10.0), the Length
Source and rarity data do resolve as the claim lists them, but
`scrape_steam_data` raises `ValueError` unpacking the 3-tuple of
`get_hltb_data` into two variables (`steam_utils.py:143`), so the sync
persists no Library Record at all (an error diagnostic is logged instead);
the record schema moreover has no `HLTB Title` key. -/
theorem scrape_example_raises_unpack_error :
    get_hltb_data exampleSearch "Game A" = (some 99, some "Game A", some ⟨1000, 100⟩)
    ∧ get_rarest_achievement_percentage exampleAchievements = Except.ok "12.3"
    ∧ player_has_completed exampleComplFetch 10 = some true
    ∧ scrape_steam_data exampleAchFetch exampleComplFetch exampleSearch [exampleGame]
        = Except.error PyErr.valueError
    ∧ scrape_and_save_data
        (fun game => scrape_steam_data exampleAchFetch exampleComplFetch exampleSearch [game])
        emptyState [exampleGame]
        = { store := [], registry := [], log := [(10, "Game A")] } :=
  ⟨rfl, rfl, rfl, rfl, rfl⟩

/-- C3: an item whose achievement list comes back empty never reaches the
no-achievements classification: the tuple unpack at `steam_utils.py:143`
raises `ValueError` first, for every such game and any Length Source and
completion collaborator; at the sync level the item is error-logged and
the registry is left unchanged, instead of receiving the AppID. -/
theorem empty_achievements_item_raises_before_registry :
    ∀ (g : Game) (complFetch : Nat → Except HttpErr (List PlayerAch))
      (search : String → List HltbEntry),
      scrape_steam_data (fun _ => Except.ok []) complFetch search [g]
        = Except.error PyErr.valueError
      ∧ scrape_and_save_data
          (fun game => scrape_steam_data (fun _ => Except.ok []) complFetch search [game])
          emptyState [g]
          = { store := [], registry := [], log := [(g.appid, g.name)] } :=
  fun _ _ _ => ⟨rfl, rfl⟩

/-- C10: an HTTP error while fetching achievement definitions yields the
same `None` as a truly empty achievement list, for every AppID — the two
are indistinguishable at `get_game_achievement_data`; but the claimed
consequence (the item landing in the No-Achievements Registry) never
happens: the scrape raises `ValueError` at the tuple unpack
(`steam_utils.py:143`) before the classification, so the item is
error-logged and retried on every subsequent sync instead of being
registered and skipped. -/
theorem http_error_equals_empty_achievements :
    (∀ appid : Nat,
      get_game_achievement_data (fun _ => Except.error HttpErr.httpError) appid = none
      ∧ get_game_achievement_data (fun _ => Except.ok []) appid = none)
    ∧ ∀ (g : Game) (complFetch : Nat → Except HttpErr (List PlayerAch))
        (search : String → List HltbEntry),
        scrape_steam_data (fun _ => Except.error HttpErr.httpError) complFetch search [g]
          = Except.error PyErr.valueError
        ∧ scrape_and_save_data
            (fun game =>
              scrape_steam_data (fun _ => Except.error HttpErr.httpError) complFetch search [game])
            emptyState [g]
            = { store := [], registry := [], log := [(g.appid, g.name)] } :=
  ⟨fun _ => ⟨rfl, rfl⟩, fun _ _ _ => ⟨rfl, rfl⟩⟩

/-- C6: when the name-to-id service maps a vanity name to nothing
(`steam64_from_url` returns `None` without raising), `resolve_vanity_url`
returns the truthy string `"None"` — `str` is applied before the
truthiness test, so the failure branch is unreachable — and
`resolve_steamid` accepts it as the SteamID (its `is None` guard never
fires); only a transport failure aborts with `sys.exit(1)`. -/
theorem unresolvable_vanity_returns_none_string :
    resolve_vanity_url (Except.ok none) = Except.ok "None"
    ∧ (∀ (cfg : String) (v : String),
        resolve_steamid cfg (Except.ok none) ⟨none, some v⟩ = Except.ok "None")
    ∧ resolve_vanity_url (Except.error HttpErr.httpError) = Except.error AbortKind.exitOne :=
  ⟨rfl, fun _ _ => rfl, rfl⟩

/-- C2 counterexample: with no candidates at any rung, the query trace for
`"Foo: Bar Edition (2020)"` never contains the "Edition"-stripped title
`"Foo: Bar"` the claim requires: the edition rung fires only when the last
whitespace token is `"edition"`, and here it is `"(2020)"`. -/
theorem retry_ladder_example_skips_edition_rung :
    "Foo: Bar" ∉ hltbQueries emptySearch "Foo: Bar Edition (2020)" := by
  decide

/-- C2 (amended): with no candidates at any rung, the queries issued for
`"Foo: Bar Edition (2020)"` are, in order: the original title, the
ASCII-stripped title (identical here), the lower-cased title, the
year-stripped title `"Foo: Bar Edition"`, and the colon-split title
`"Foo"`; the edition rung is skipped (the last whitespace token is
`"(2020)"`, not `"edition"`) and the dash rung is skipped (no dash), and
the lookup reports an absent result. -/
theorem retry_ladder_example_order :
    ∀ search : String → List HltbEntry, (∀ q, search q = []) →
      hltbQueries search "Foo: Bar Edition (2020)" =
        ["Foo: Bar Edition (2020)", "Foo: Bar Edition (2020)", "foo: bar edition (2020)",
         "Foo: Bar Edition", "Foo"]
      ∧ get_hltb_data search "Foo: Bar Edition (2020)" = (none, none, none) := by
  intro search h
  have h1 : asciiStrip "Foo: Bar Edition (2020)" = "Foo: Bar Edition (2020)" := by decide
  have h2 : pyLower "Foo: Bar Edition (2020)" = "foo: bar edition (2020)" := by decide
  have h3 : lastTokenIsEdition "Foo: Bar Edition (2020)" = false := by decide
  have h4 : endsYearParen "Foo: Bar Edition (2020)" = true := by decide
  have h5 : rsplitHead "Foo: Bar Edition (2020)" 1 = "Foo: Bar Edition" := by decide
  have h6 : pyContainsChar "Foo: Bar Edition (2020)" '-' = false := by decide
  have h7 : pyContainsChar "Foo: Bar Edition (2020)" ':' = true := by decide
  have h8 : splitHead "Foo: Bar Edition (2020)" ':' = "Foo" := by decide
  constructor
  · simp [hltbQueries, get_hltb_run, h, h1, h2, h3, h4, h5, h6, h7, h8, pyMaxBySim, Id.run]
  · simp [get_hltb_data, get_hltb_run, h, h1, h2, h3, h4, h5, h6, h7, h8, pyMaxBySim, Id.run]

/-- Witness for `retry_ladder_example_order` at the constant-empty Length
Source. -/
theorem retry_ladder_example_order_witness :
    (∀ q, emptySearch q = []) ∧
      (hltbQueries emptySearch "Foo: Bar Edition (2020)" =
        ["Foo: Bar Edition (2020)", "Foo: Bar Edition (2020)", "foo: bar edition (2020)",
         "Foo: Bar Edition", "Foo"]
      ∧ get_hltb_data emptySearch "Foo: Bar Edition (2020)" = (none, none, none)) :=
  ⟨fun _ => rfl, retry_ladder_example_order emptySearch (fun _ => rfl)⟩

/-- C5: the per-item `try/except` of `scrape_and_save_data` isolates
failures: whenever the step for one game raises, running the batch equals
running the prefix, appending exactly one log diagnostic carrying that
game's AppID and title (store and registry untouched by the failing item),
and then running the remaining games from there — no abort. -/
theorem sync_isolates_item_failures :
    ∀ (step : Game → Except PyErr (List LibraryRecord × List Nat))
      (st : SyncState) (pre post : List Game) (g : Game),
      (∃ e, step g = Except.error e) →
      scrape_and_save_data step st (pre ++ g :: post) =
        scrape_and_save_data step
          (let st1 := scrape_and_save_data step st pre
           { st1 with log := st1.log ++ [(g.appid, g.name)] }) post := by
  intro step st pre post g he
  obtain ⟨e, he⟩ := he
  simp [scrape_and_save_data, List.foldl_append, processGame, he]

/-- Witness for `sync_isolates_item_failures`: a batch of two games whose
first raises; the second is still processed. -/
theorem sync_isolates_item_failures_witness :
    (∃ e, (fun _ : Game =>
        (Except.error PyErr.valueError : Except PyErr (List LibraryRecord × List Nat)))
          ⟨1, "A"⟩ = Except.error e)
    ∧ scrape_and_save_data
        (fun _ => Except.error PyErr.valueError) emptyState ([] ++ ⟨1, "A"⟩ :: [⟨2, "B"⟩]) =
      scrape_and_save_data (fun _ => Except.error PyErr.valueError)
        (let st1 := scrape_and_save_data (fun _ => Except.error PyErr.valueError) emptyState []
         { st1 with log := st1.log ++ [(1, "A")] }) [⟨2, "B"⟩] :=
  ⟨⟨PyErr.valueError, rfl⟩,
   sync_isolates_item_failures (fun _ => Except.error PyErr.valueError) emptyState []
     [⟨2, "B"⟩] ⟨1, "A"⟩ ⟨PyErr.valueError, rfl⟩⟩

/-- The fold inside `min(data, key=...)` over achievements that all carry
a `percent` field computes the running minimum of the percents, keeping
the first element on ties. -/
theorem pyMinBy_on_present (ps : List Q) : ∀ p0 : Q,
    (ps.map (fun p => (⟨some p⟩ : Achievement))).foldl
      (fun best x =>
        if Q.lt (x.percent.getD (Q.ofInt 100)) (best.percent.getD (Q.ofInt 100)) then x else best)
      ⟨some p0⟩
    = ⟨some (ps.foldl Q.pymin p0)⟩ := by
  induction ps with
  | nil => intro p0; rfl
  | cons q qs ih =>
    intro p0
    simp only [List.map_cons, List.foldl_cons]
    have hstep :
        (if Q.lt ((⟨some q⟩ : Achievement).percent.getD (Q.ofInt 100))
              ((⟨some p0⟩ : Achievement).percent.getD (Q.ofInt 100))
         then (⟨some q⟩ : Achievement) else ⟨some p0⟩)
        = (⟨some (Q.pymin p0 q)⟩ : Achievement) := by
      unfold Q.pymin
      split <;> simp_all [Option.getD]
    rw [hstep, ih]

/-- Rounding a value that already has denominator ten to one decimal is
the identity on the numerator. -/
theorem rneScaled_over10 (m : Int) : Q.rneScaled ⟨m, 10⟩ 10 = m := by
  unfold Q.rneScaled
  have h : Int.fdiv (m * 10) 10 = m := Int.mul_fdiv_cancel m (by decide)
  simp [h]

/-- The one-decimal rendering already rounds, so pre-rounding with
`round(x, 1)` does not change it. -/
theorem fmtOneDec_round1 (p : Q) : Q.fmtOneDec (Q.round1 p) = Q.fmtOneDec p := by
  unfold Q.round1 Q.fmtOneDec
  rw [rneScaled_over10]

/-- The running minimum of an all-equal list is that value. -/
theorem foldl_pymin_replicate (c : Q) : ∀ n : Nat, (List.replicate n c).foldl Q.pymin c = c := by
  intro n
  induction n with
  | zero => rfl
  | succ k ih =>
    have hmin : Q.pymin c c = c := by unfold Q.pymin; split <;> rfl
    simp [List.replicate_succ, hmin, ih]

/-- C4: for every non-empty achievement list whose elements all carry a
`percent` field, `get_rarest_achievement_percentage` returns the minimum
percent rendered with exactly one decimal digit; in particular an
all-equal list yields that common value so rendered. -/
theorem rarity_eq_min_percent_formatted :
    (∀ (p0 : Q) (ps : List Q),
      get_rarest_achievement_percentage ((p0 :: ps).map (fun p => ⟨some p⟩)) =
        Except.ok (Q.fmtOneDec (ps.foldl Q.pymin p0)))
    ∧ ∀ (c : Q) (n : Nat),
      get_rarest_achievement_percentage (List.replicate (n + 1) (⟨some c⟩ : Achievement)) =
        Except.ok (Q.fmtOneDec c) := by
  constructor
  · intro p0 ps
    unfold get_rarest_achievement_percentage pyMinByPercent
    simp only [List.map_cons]
    rw [pyMinBy_on_present ps p0]
    show Except.ok (Q.fmtOneDec (Q.round1 (ps.foldl Q.pymin p0))) = _
    rw [fmtOneDec_round1]
  · intro c n
    have hrep : List.replicate (n + 1) (⟨some c⟩ : Achievement) =
        (c :: List.replicate n c).map (fun p => ⟨some p⟩) := by
      simp [List.replicate_succ, List.map_replicate]
    rw [hrep]
    unfold get_rarest_achievement_percentage pyMinByPercent
    simp only [List.map_cons]
    rw [pyMinBy_on_present (List.replicate n c) c]
    show Except.ok (Q.fmtOneDec (Q.round1 ((List.replicate n c).foldl Q.pymin c))) = _
    rw [foldl_pymin_replicate, fmtOneDec_round1]

/-- A `save_to_json` write is a permutation of the old records plus the
new ones (nothing is dropped or duplicated by the sort). -/
theorem save_to_json_perm (e d : List LibraryRecord) : (save_to_json e d).Perm (e ++ d) :=
  List.perm_insertionSort rarityDesc (e ++ d)

/-- Every `save_to_json` write leaves the store sorted by descending
rarity. -/
theorem save_to_json_sorted (e d : List LibraryRecord) : (save_to_json e d).Pairwise rarityDesc :=
  List.sorted_insertionSort rarityDesc (e ++ d)

/-- Membership in the registry after
`save_appids_without_achievements`. -/
theorem mem_save_appids (reg ids : List Nat) (a : Nat) :
    a ∈ save_appids_without_achievements reg ids ↔ a ∈ reg ∨ a ∈ ids := by
  unfold save_appids_without_achievements
  rw [(List.perm_insertionSort _ _).mem_iff, List.mem_dedup, List.mem_append]

/-- AppID membership in the store after a `save_to_json` write. -/
theorem mem_map_save_to_json (e d : List LibraryRecord) (a : Nat) :
    a ∈ (save_to_json e d).map LibraryRecord.AppID ↔
      a ∈ e.map LibraryRecord.AppID ∨ a ∈ d.map LibraryRecord.AppID := by
  rw [((save_to_json_perm e d).map LibraryRecord.AppID).mem_iff, List.map_append, List.mem_append]

/-- A `save_to_json` write keeps AppIDs unique when the combined input is
unique. -/
theorem nodup_map_save_to_json (e d : List LibraryRecord)
    (h : ((e ++ d).map LibraryRecord.AppID).Nodup) :
    ((save_to_json e d).map LibraryRecord.AppID).Nodup :=
  (((save_to_json_perm e d).map LibraryRecord.AppID).nodup_iff).mpr h

/-- Processing one item never removes an AppID from the store. -/
theorem processGame_store_mono (step : Game → Except PyErr (List LibraryRecord × List Nat))
    (st : SyncState) (g : Game) (a : Nat) (h : a ∈ st.store.map LibraryRecord.AppID) :
    a ∈ (processGame step st g).store.map LibraryRecord.AppID := by
  unfold processGame
  cases hs : step g with
  | ok p =>
    obtain ⟨scraped, noach⟩ := p
    simp only [hs]
    exact (mem_map_save_to_json st.store scraped a).mpr (Or.inl h)
  | error e => simp only [hs]; exact h

/-- Processing one item never removes an AppID from the registry. -/
theorem processGame_registry_mono (step : Game → Except PyErr (List LibraryRecord × List Nat))
    (st : SyncState) (g : Game) (a : Nat) (h : a ∈ st.registry) :
    a ∈ (processGame step st g).registry := by
  unfold processGame
  cases hs : step g with
  | ok p =>
    obtain ⟨scraped, noach⟩ := p
    simp only [hs]
    exact (mem_save_appids st.registry noach a).mpr (Or.inl h)
  | error e => simp only [hs]; exact h

/-- A whole pass never removes an AppID from the store. -/
theorem scrape_store_mono (step : Game → Except PyErr (List LibraryRecord × List Nat)) :
    ∀ (games : List Game) (st : SyncState) (a : Nat),
      a ∈ st.store.map LibraryRecord.AppID →
      a ∈ (scrape_and_save_data step st games).store.map LibraryRecord.AppID := by
  intro games
  induction games with
  | nil => intro st a h; exact h
  | cons g gs ih =>
    intro st a h
    exact ih _ a (processGame_store_mono step st g a h)

/-- A whole pass never removes an AppID from the registry. -/
theorem scrape_registry_mono (step : Game → Except PyErr (List LibraryRecord × List Nat)) :
    ∀ (games : List Game) (st : SyncState) (a : Nat),
      a ∈ st.registry → a ∈ (scrape_and_save_data step st games).registry := by
  intro games
  induction games with
  | nil => intro st a h; exact h
  | cons g gs ih =>
    intro st a h
    exact ih _ a (processGame_registry_mono step st g a h)

/-- A failed `List.contains` test means non-membership. -/
theorem contains_false_not_mem {l : List Nat} {a : Nat} (h : l.contains a = false) : a ∉ l := by
  intro hm
  rw [show (a ∈ l) = (List.elem a l = true) from (propext List.elem_iff).symm] at hm
  rw [show l.contains a = l.elem a from rfl] at h
  rw [h] at hm
  exact Bool.false_ne_true hm

/-- Invariant of the per-item loop: starting from a unique, sorted store
and pending items with fresh, pairwise-distinct AppIDs, the store stays
unique by AppID and sorted by descending rarity. -/
theorem scrape_invariant (outcome : Game → ItemOutcome) :
    ∀ (pending : List Game) (st : SyncState),
      (st.store.map LibraryRecord.AppID).Nodup →
      st.store.Pairwise rarityDesc →
      (pending.map Game.appid).Nodup →
      (∀ g ∈ pending, g.appid ∉ st.store.map LibraryRecord.AppID) →
      ((scrape_and_save_data (itemStep outcome) st pending).store.map LibraryRecord.AppID).Nodup
      ∧ (scrape_and_save_data (itemStep outcome) st pending).store.Pairwise rarityDesc := by
  intro pending
  induction pending with
  | nil => intro st h1 h2 _ _; exact ⟨h1, h2⟩
  | cons g gs ih =>
    intro st h1 h2 h3 h4
    have hgfresh : g.appid ∉ st.store.map LibraryRecord.AppID := h4 g (List.mem_cons_self g gs)
    rw [List.map_cons] at h3
    obtain ⟨hgtail, h3'⟩ := List.nodup_cons.mp h3
    have hstep : scrape_and_save_data (itemStep outcome) st (g :: gs) =
        scrape_and_save_data (itemStep outcome) (processGame (itemStep outcome) st g) gs := rfl
    rw [hstep]
    cases ho : outcome g with
    | payload rarest completed hid htime =>
      have hpg : processGame (itemStep outcome) st g =
          { st with
            store := save_to_json st.store
              [{ AppID := g.appid, Title := pyTrim g.name, rarestAchievementPct := rarest,
                 Completed := completed, hltbId := hid, hltbCompletionistTime := htime }],
            registry := save_appids_without_achievements st.registry [] } := by
        simp [processGame, itemStep, ho]
      rw [hpg]
      apply ih
      · apply nodup_map_save_to_json
        rw [List.map_append]
        apply List.Nodup.append h1 (by simp)
        intro x hx hx2
        simp at hx2
        subst hx2
        exact hgfresh hx
      · exact save_to_json_sorted _ _
      · exact h3'
      · intro g' hg'
        rw [mem_map_save_to_json]
        rintro (hcase | hcase)
        · exact h4 g' (List.mem_cons_of_mem g hg') hcase
        · simp at hcase
          exact hgtail (hcase ▸ List.mem_map_of_mem Game.appid hg')
    | noAchievements =>
      have hpg : processGame (itemStep outcome) st g =
          { st with store := save_to_json st.store [],
                    registry := save_appids_without_achievements st.registry [g.appid] } := by
        simp [processGame, itemStep, ho]
      rw [hpg]
      apply ih
      · apply nodup_map_save_to_json
        simpa using h1
      · exact save_to_json_sorted _ _
      · exact h3'
      · intro g' hg'
        rw [mem_map_save_to_json]
        rintro (hcase | hcase)
        · exact h4 g' (List.mem_cons_of_mem g hg') hcase
        · simp at hcase
    | raised e =>
      have hpg : processGame (itemStep outcome) st g = { st with log := st.log ++ [(g.appid, g.name)] } := by
        simp [processGame, itemStep, ho]
      rw [hpg]
      apply ih
      · exact h1
      · exact h2
      · exact h3'
      · intro g' hg'
        exact h4 g' (List.mem_cons_of_mem g hg')

/-- Every pending item of a sync pass has an AppID absent from the
store (it survived the `get_new_games` filter). -/
theorem pending_fresh (st : SyncState) (owned : List Game) :
    ∀ g ∈ get_new_games (load_existing_appids st.store st.registry) owned,
      g.appid ∉ st.store.map LibraryRecord.AppID := by
  intro g hg
  have hf := List.mem_filter.mp hg
  have hc : (load_existing_appids st.store st.registry).contains g.appid = false := by
    cases hcc : (load_existing_appids st.store st.registry).contains g.appid with
    | false => rfl
    | true => rw [hcc] at hf; simp at hf
  have hnm := contains_false_not_mem hc
  intro hmem
  exact hnm (by unfold load_existing_appids; exact List.mem_append.mpr (Or.inl hmem))

/-- The pending list inherits distinct AppIDs from the ownership list. -/
theorem pending_nodup (existing : List Nat) (owned : List Game)
    (h : (owned.map Game.appid).Nodup) :
    ((get_new_games existing owned).map Game.appid).Nodup :=
  h.sublist (List.Sublist.map Game.appid (List.filter_sublist owned))

/-- Uniqueness and sortedness of the store are preserved by any sequence
of sync passes whose ownership lists have distinct AppIDs. -/
theorem syncs_invariant :
    ∀ (runs : List ((List Game) × (Game → ItemOutcome))) (st : SyncState),
      (st.store.map LibraryRecord.AppID).Nodup →
      st.store.Pairwise rarityDesc →
      (∀ run ∈ runs, ((run.1).map Game.appid).Nodup) →
      (((runs.foldl (fun s run => syncPass run.2 s run.1) st).store.map LibraryRecord.AppID).Nodup
       ∧ (runs.foldl (fun s run => syncPass run.2 s run.1) st).store.Pairwise rarityDesc) := by
  intro runs
  induction runs with
  | nil => intro st h1 h2 _; exact ⟨h1, h2⟩
  | cons r rs ih =>
    intro st h1 h2 h3
    have hinv := scrape_invariant r.2
      (get_new_games (load_existing_appids st.store st.registry) r.1) st h1 h2
      (pending_nodup _ _ (h3 r (List.mem_cons_self r rs)))
      (pending_fresh st r.1)
    exact ih (syncPass r.2 st r.1) hinv.1 hinv.2
      (fun run hr => h3 run (List.mem_cons_of_mem r hr))

/-- C7: every `save_to_json` write leaves the per-user store ordered by
descending Rarest Achievement %, and across any number of sync calls
(each ownership list unique by AppID, store initially unique and sorted —
e.g. empty) the store stays unique by AppID and so ordered. -/
theorem store_unique_and_sorted_after_syncs :
    (∀ e d, (save_to_json e d).Pairwise rarityDesc)
    ∧ ∀ (st : SyncState) (runs : List ((List Game) × (Game → ItemOutcome))),
      (st.store.map LibraryRecord.AppID).Nodup →
      st.store.Pairwise rarityDesc →
      (∀ run ∈ runs, ((run.1).map Game.appid).Nodup) →
      (((runs.foldl (fun s run => syncPass run.2 s run.1) st).store.map LibraryRecord.AppID).Nodup
       ∧ (runs.foldl (fun s run => syncPass run.2 s run.1) st).store.Pairwise rarityDesc) :=
  ⟨fun e d => save_to_json_sorted e d,
   fun st runs h1 h2 h3 => syncs_invariant runs st h1 h2 h3⟩

/-- Witness for `store_unique_and_sorted_after_syncs`: one sync over two
fresh games from an empty store. -/
theorem store_unique_and_sorted_after_syncs_witness :
    ((emptyState.store.map LibraryRecord.AppID).Nodup
     ∧ emptyState.store.Pairwise rarityDesc
     ∧ (∀ run ∈ [((([⟨1, "A"⟩, ⟨2, "B"⟩] : List Game),
          (fun g : Game =>
            ItemOutcome.payload (if g.appid == 1 then "10.0" else "50.0") none none none)))],
          ((run.1).map Game.appid).Nodup))
    ∧ ((([((([⟨1, "A"⟩, ⟨2, "B"⟩] : List Game),
          (fun g : Game =>
            ItemOutcome.payload (if g.appid == 1 then "10.0" else "50.0") none none none)))].foldl
            (fun s run => syncPass run.2 s run.1) emptyState).store.map LibraryRecord.AppID).Nodup
       ∧ ([((([⟨1, "A"⟩, ⟨2, "B"⟩] : List Game),
          (fun g : Game =>
            ItemOutcome.payload (if g.appid == 1 then "10.0" else "50.0") none none none)))].foldl
            (fun s run => syncPass run.2 s run.1) emptyState).store.Pairwise rarityDesc) :=
  ⟨⟨by decide, by decide, by decide⟩,
   store_unique_and_sorted_after_syncs.2 emptyState _ (by decide) (by decide) (by decide)⟩

/-- A pass with no per-item exception classifies every pending item: its
AppID lands in the store or in the registry. -/
theorem scrape_covers (outcome : Game → ItemOutcome) :
    ∀ (pending : List Game) (st : SyncState),
      (∀ g ∈ pending, ∀ e, outcome g ≠ ItemOutcome.raised e) →
      ∀ g ∈ pending,
        g.appid ∈ (scrape_and_save_data (itemStep outcome) st pending).store.map LibraryRecord.AppID
        ∨ g.appid ∈ (scrape_and_save_data (itemStep outcome) st pending).registry := by
  intro pending
  induction pending with
  | nil => intro st _ g hg; exact absurd hg (List.not_mem_nil g)
  | cons g gs ih =>
    intro st hno g' hg'
    have hstep : scrape_and_save_data (itemStep outcome) st (g :: gs) =
        scrape_and_save_data (itemStep outcome) (processGame (itemStep outcome) st g) gs := rfl
    rw [hstep]
    rcases List.mem_cons.mp hg' with hhead | htail
    · subst hhead
      cases ho : outcome g' with
      | payload rarest completed hid htime =>
        left
        apply scrape_store_mono
        have hpg : (processGame (itemStep outcome) st g').store =
            save_to_json st.store
              [{ AppID := g'.appid, Title := pyTrim g'.name, rarestAchievementPct := rarest,
                 Completed := completed, hltbId := hid, hltbCompletionistTime := htime }] := by
          simp [processGame, itemStep, ho]
        rw [hpg, mem_map_save_to_json]
        right
        simp
      | noAchievements =>
        right
        apply scrape_registry_mono
        have hpg : (processGame (itemStep outcome) st g').registry =
            save_appids_without_achievements st.registry [g'.appid] := by
          simp [processGame, itemStep, ho]
        rw [hpg, mem_save_appids]
        right
        simp
      | raised e => exact absurd ho (hno g' (List.mem_cons_self g' gs) e)
    · exact ih (processGame (itemStep outcome) st g)
        (fun x hx e => hno x (List.mem_cons_of_mem g hx) e) g' htail

/-- Membership gives a successful `List.contains` test. -/
theorem mem_contains_true {l : List Nat} {a : Nat} (h : a ∈ l) : l.contains a = true := by
  rw [show l.contains a = l.elem a from rfl]
  exact (List.elem_iff).mpr h

/-- C9: after a sync pass in which no pending item raised, the
already-processed set recomputed from the persisted stores covers every
owned item, so an immediately repeated sync over the unchanged ownership
list has an empty pending set and adds zero new Library Records (the
state is unchanged, whatever the second pass would have scraped). -/
theorem sync_idempotent_after_complete_pass :
    ∀ (st : SyncState) (owned : List Game) (outcome : Game → ItemOutcome),
      (∀ g ∈ get_new_games (load_existing_appids st.store st.registry) owned,
        ∀ e, outcome g ≠ ItemOutcome.raised e) →
      get_new_games
        (load_existing_appids (syncPass outcome st owned).store
          (syncPass outcome st owned).registry) owned = []
      ∧ ∀ outcome2 : Game → ItemOutcome,
          syncPass outcome2 (syncPass outcome st owned) owned = syncPass outcome st owned := by
  intro st owned outcome hno
  have hcover : ∀ g ∈ owned,
      g.appid ∈ (syncPass outcome st owned).store.map LibraryRecord.AppID
      ∨ g.appid ∈ (syncPass outcome st owned).registry := by
    intro g hg
    by_cases hp : g ∈ get_new_games (load_existing_appids st.store st.registry) owned
    · exact scrape_covers outcome _ st hno g hp
    · have hpred : ((load_existing_appids st.store st.registry).contains g.appid) = true := by
        by_contra hfalse
        have : (!(load_existing_appids st.store st.registry).contains g.appid) = true := by
          cases hb : (load_existing_appids st.store st.registry).contains g.appid with
          | true => exact absurd hb hfalse
          | false => rfl
        exact hp (List.mem_filter.mpr ⟨hg, this⟩)
      have hmem0 : g.appid ∈ load_existing_appids st.store st.registry :=
        List.elem_iff.mp hpred
      unfold load_existing_appids at hmem0
      rcases List.mem_append.mp hmem0 with hs | hr
      · exact Or.inl (scrape_store_mono (itemStep outcome) _ st g.appid hs)
      · exact Or.inr (scrape_registry_mono (itemStep outcome) _ st g.appid hr)
  have hpend : get_new_games
      (load_existing_appids (syncPass outcome st owned).store
        (syncPass outcome st owned).registry) owned = [] := by
    apply List.filter_eq_nil_iff.mpr
    intro g hg
    have hmem : g.appid ∈ load_existing_appids (syncPass outcome st owned).store
        (syncPass outcome st owned).registry := by
      unfold load_existing_appids
      exact List.mem_append.mpr (hcover g hg)
    simpa using hmem
  refine ⟨hpend, ?_⟩
  intro outcome2
  show scrape_and_save_data (itemStep outcome2) (syncPass outcome st owned)
      (get_new_games
        (load_existing_appids (syncPass outcome st owned).store
          (syncPass outcome st owned).registry) owned) = syncPass outcome st owned
  rw [hpend]
  rfl

/-- Two booleans agreeing as propositions are equal. -/
theorem bool_eq_of_iff {x y : Bool} (h : x = true ↔ y = true) : x = y := by
  cases x <;> cases y <;> simp_all

/-- `List.contains` decides membership. -/
theorem contains_iff_mem {l : List Nat} {a : Nat} : l.contains a = true ↔ a ∈ l :=
  ⟨fun h => (List.elem_iff).mp h, fun h => mem_contains_true h⟩

/-- Key membership of the modelled Python dict, propositionally. -/
theorem pyHasKey_iff {d : List (Nat × SHEntry)} {k : Nat} :
    pyHasKey d k = true ↔ ∃ p ∈ d, p.1 = k := by
  simp [pyHasKey, List.any_eq_true, beq_iff_eq]

/-- Keys after a Python dict assignment: the old keys plus the assigned
one. -/
theorem pyDictInsert_key_iff (d : List (Nat × SHEntry)) (a : Nat) (v : SHEntry) (k : Nat) :
    (∃ p ∈ pyDictInsert d a v, p.1 = k) ↔ (∃ p ∈ d, p.1 = k) ∨ a = k := by
  unfold pyDictInsert
  split
  case isTrue h =>
    rw [List.any_eq_true] at h
    obtain ⟨w, hw, hwa⟩ := h
    rw [beq_iff_eq] at hwa
    constructor
    · rintro ⟨q, hq, hqk⟩
      rw [List.mem_map] at hq
      obtain ⟨p, hp, hfp⟩ := hq
      by_cases hpa : p.1 = a
      · have : q = (a, v) := by rw [← hfp]; simp [hpa]
        right; rw [← hqk, this]
      · have : q = p := by rw [← hfp]; simp [hpa]
        left; exact ⟨p, hp, this ▸ hqk⟩
    · rintro (⟨p, hp, hpk⟩ | hak)
      · by_cases hpa : p.1 = a
        · refine ⟨(a, v), List.mem_map.mpr ⟨p, hp, by simp [hpa]⟩, ?_⟩
          simp [← hpa, hpk]
        · exact ⟨p, List.mem_map.mpr ⟨p, hp, by simp [hpa]⟩, hpk⟩
      · exact ⟨(a, v), List.mem_map.mpr ⟨w, hw, by simp [hwa]⟩, hak⟩
  case isFalse h =>
    constructor
    · rintro ⟨q, hq, hqk⟩
      rcases List.mem_append.mp hq with hq | hq
      · exact Or.inl ⟨q, hq, hqk⟩
      · right; simp at hq; rw [hq] at hqk; exact hqk
    · rintro (⟨p, hp, hpk⟩ | hak)
      · exact ⟨p, List.mem_append.mpr (Or.inl hp), hpk⟩
      · exact ⟨(a, v), List.mem_append.mpr (Or.inr (by simp)), hak⟩

/-- The keys of the dict built by `load_existing_ids` are exactly the
AppIDs of the cache file. -/
theorem load_existing_ids_key_iff (cache : List SHEntry) (k : Nat) :
    pyHasKey (load_existing_ids cache) k = true ↔ k ∈ cache.map SHEntry.AppID := by
  have gen : ∀ (cs : List SHEntry) (d : List (Nat × SHEntry)),
      (∃ p ∈ cs.foldl (fun d e => pyDictInsert d e.AppID e) d, p.1 = k)
        ↔ (∃ p ∈ d, p.1 = k) ∨ k ∈ cs.map SHEntry.AppID := by
    intro cs
    induction cs with
    | nil => intro d; simp
    | cons e es ih =>
      intro d
      rw [List.foldl_cons, ih (pyDictInsert d e.AppID e)]
      rw [pyDictInsert_key_iff]
      simp [or_assoc, eq_comm]
  rw [pyHasKey_iff]
  unfold load_existing_ids
  rw [gen cache []]
  simp

/-- The double collection loop of `add_new_ids_from_users` gathers, in
order, exactly the first record of each AppID that is neither in the
cache nor already collected. -/
theorem collect_spec (cache : List SHEntry) :
    ∀ (rs : List LibraryRecord) (acc : List (Nat × SHEntry)),
      collectNewEntries (load_existing_ids cache) rs acc
        = acc ++ (firstFreshPerAppID (cache.map SHEntry.AppID) rs (acc.map Prod.fst)).map
            (fun r => (r.AppID, projEntry r)) := by
  intro rs
  induction rs with
  | nil => intro acc; simp [collectNewEntries, firstFreshPerAppID]
  | cons r rest ih =>
    intro acc
    have hg1 : pyHasKey (load_existing_ids cache) r.AppID
        = (cache.map SHEntry.AppID).contains r.AppID :=
      bool_eq_of_iff ((load_existing_ids_key_iff cache r.AppID).trans contains_iff_mem.symm)
    have hg2 : pyHasKey acc r.AppID = (acc.map Prod.fst).contains r.AppID := by
      apply bool_eq_of_iff
      rw [pyHasKey_iff, contains_iff_mem]
      simp [eq_comm]
    show (if pyHasKey (load_existing_ids cache) r.AppID || pyHasKey acc r.AppID then
            collectNewEntries (load_existing_ids cache) rest acc
          else collectNewEntries (load_existing_ids cache) rest (acc ++ [(r.AppID, projEntry r)]))
        = _
    rw [hg1, hg2]
    show _ = acc ++ (if (cache.map SHEntry.AppID).contains r.AppID
          || (acc.map Prod.fst).contains r.AppID then
            firstFreshPerAppID (cache.map SHEntry.AppID) rest (acc.map Prod.fst)
          else r :: firstFreshPerAppID (cache.map SHEntry.AppID) rest
            (acc.map Prod.fst ++ [r.AppID])).map (fun r => (r.AppID, projEntry r))
    by_cases hb : ((cache.map SHEntry.AppID).contains r.AppID
        || (acc.map Prod.fst).contains r.AppID) = true
    · rw [if_pos hb, if_pos hb]
      exact ih acc
    · rw [if_neg hb, if_neg hb]
      rw [ih (acc ++ [(r.AppID, projEntry r)])]
      simp [List.append_assoc]

/-- The spec-side selection keeps pairwise-distinct AppIDs, all of them
outside the cache and the seen set. -/
theorem firstFresh_props (cids : List Nat) :
    ∀ (rs : List LibraryRecord) (seen : List Nat),
      ((firstFreshPerAppID cids rs seen).map LibraryRecord.AppID).Nodup
      ∧ ∀ a ∈ (firstFreshPerAppID cids rs seen).map LibraryRecord.AppID, a ∉ cids ∧ a ∉ seen := by
  intro rs
  induction rs with
  | nil => intro seen; simp [firstFreshPerAppID]
  | cons r rest ih =>
    intro seen
    unfold firstFreshPerAppID
    by_cases hb : (cids.contains r.AppID || seen.contains r.AppID) = true
    · rw [if_pos hb]; exact ih seen
    · rw [if_neg hb]
      have hor : cids.contains r.AppID = false ∧ seen.contains r.AppID = false := by
        cases hx : cids.contains r.AppID <;> cases hy : seen.contains r.AppID <;>
          simp_all
      obtain ⟨ihn, ihf⟩ := ih (seen ++ [r.AppID])
      rw [List.map_cons]
      constructor
      · rw [List.nodup_cons]
        refine ⟨fun hmem => ?_, ihn⟩
        have := (ihf r.AppID hmem).2
        exact this (List.mem_append.mpr (Or.inr (by simp)))
      · intro a ha
        rcases List.mem_cons.mp ha with hhead | htail
        · subst hhead
          exact ⟨contains_false_not_mem hor.1, contains_false_not_mem hor.2⟩
        · obtain ⟨h1, h2⟩ := ihf a htail
          exact ⟨h1, fun hmem => h2 (List.mem_append.mpr (Or.inl hmem))⟩

/-- C8: the cross-reference import appends to the cache exactly the
first-seen record of every AppID (across all user files, in scan order)
not already present, never touching existing entries, and the cache stays
unique by AppID. -/
theorem import_first_seen_wins_unique :
    ∀ (cache : List SHEntry) (files : List (List LibraryRecord)),
      (cache.map SHEntry.AppID).Nodup →
      add_new_ids_from_users cache files
        = cache ++ (firstFreshPerAppID (cache.map SHEntry.AppID) files.flatten []).map projEntry
      ∧ ((add_new_ids_from_users cache files).map SHEntry.AppID).Nodup := by
  intro cache files hnd
  have hproj : ∀ L : List LibraryRecord,
      (L.map (fun r => (r.AppID, projEntry r))).map Prod.snd = L.map projEntry := by
    intro L
    rw [List.map_map]
    rfl
  have heq : add_new_ids_from_users cache files
      = cache ++ (firstFreshPerAppID (cache.map SHEntry.AppID) files.flatten []).map projEntry := by
    unfold add_new_ids_from_users
    simp only []
    rw [collect_spec cache files.flatten []]
    simp only [List.map_nil, List.nil_append]
    rw [hproj]
  refine ⟨heq, ?_⟩
  rw [heq, List.map_append]
  have hids : ((firstFreshPerAppID (cache.map SHEntry.AppID) files.flatten []).map projEntry).map
        SHEntry.AppID
      = (firstFreshPerAppID (cache.map SHEntry.AppID) files.flatten []).map
          LibraryRecord.AppID := by
    rw [List.map_map]
    rfl
  rw [hids]
  apply List.Nodup.append hnd (firstFresh_props _ _ _).1
  intro a ha hmem
  exact ((firstFresh_props _ _ _).2 a hmem).1 ha

/-- Witness for `sync_idempotent_after_complete_pass`: one owned game,
classified as no-achievements by the first pass. -/
theorem sync_idempotent_after_complete_pass_witness :
    (∀ g ∈ get_new_games (load_existing_appids emptyState.store emptyState.registry)
        [(⟨1, "A"⟩ : Game)],
      ∀ e, (fun _ : Game => ItemOutcome.noAchievements) g ≠ ItemOutcome.raised e)
    ∧ (get_new_games
        (load_existing_appids
          (syncPass (fun _ => ItemOutcome.noAchievements) emptyState [(⟨1, "A"⟩ : Game)]).store
          (syncPass (fun _ => ItemOutcome.noAchievements) emptyState [(⟨1, "A"⟩ : Game)]).registry)
        [(⟨1, "A"⟩ : Game)] = []
      ∧ ∀ outcome2 : Game → ItemOutcome,
          syncPass outcome2
            (syncPass (fun _ => ItemOutcome.noAchievements) emptyState [(⟨1, "A"⟩ : Game)])
            [(⟨1, "A"⟩ : Game)]
          = syncPass (fun _ => ItemOutcome.noAchievements) emptyState [(⟨1, "A"⟩ : Game)]) :=
  ⟨fun _ _ _ h => ItemOutcome.noConfusion h,
   sync_idempotent_after_complete_pass emptyState [(⟨1, "A"⟩ : Game)] _
     (fun _ _ _ h => ItemOutcome.noConfusion h)⟩

/-- Witness for `import_first_seen_wins_unique`: a cache holding AppID 5
and one user file carrying AppIDs 5, 7 and 7 again with a different
payload; only the first 7 is imported. -/
theorem import_first_seen_wins_unique_witness :
    (([(⟨5, none, none, none, none, none⟩ : SHEntry)].map SHEntry.AppID).Nodup)
    ∧ (add_new_ids_from_users [(⟨5, none, none, none, none, none⟩ : SHEntry)]
        [[(⟨5, "Old", "1.0", none, none, none⟩ : LibraryRecord),
          ⟨7, "New", "2.0", none, some 70, none⟩,
          ⟨7, "Dup", "3.0", none, some 71, none⟩]]
        = [(⟨5, none, none, none, none, none⟩ : SHEntry)]
            ++ (firstFreshPerAppID
                  ([(⟨5, none, none, none, none, none⟩ : SHEntry)].map SHEntry.AppID)
                  [[(⟨5, "Old", "1.0", none, none, none⟩ : LibraryRecord),
                    ⟨7, "New", "2.0", none, some 70, none⟩,
                    ⟨7, "Dup", "3.0", none, some 71, none⟩]].flatten []).map projEntry
      ∧ ((add_new_ids_from_users [(⟨5, none, none, none, none, none⟩ : SHEntry)]
          [[(⟨5, "Old", "1.0", none, none, none⟩ : LibraryRecord),
            ⟨7, "New", "2.0", none, some 70, none⟩,
            ⟨7, "Dup", "3.0", none, some 71, none⟩]]).map SHEntry.AppID).Nodup) :=
  ⟨by decide,
   import_first_seen_wins_unique [(⟨5, none, none, none, none, none⟩ : SHEntry)]
     [[(⟨5, "Old", "1.0", none, none, none⟩ : LibraryRecord),
       ⟨7, "New", "2.0", none, some 70, none⟩,
       ⟨7, "Dup", "3.0", none, some 71, none⟩]] (by decide)⟩
